import Mathlib

/-!
# whisper-api: a verification development for `server.cpp`

A shallow embedding of the pure and sequential parts of `server.cpp`:

* `json_escape` (lines 29-42) over byte strings;
* the `POST /inference` handler (lines 189-242) as a function of the outcomes of
  its external collaborators, together with the sequence of calls it makes;
* `decode_to_pcm16k_f32` (lines 45-164) as a function of the outcomes of the
  native calls it makes, together with the sequence of acquisitions and
  releases of native resources;
* the `read_packet` callback and its cursor `MemCtx` (lines 49-71);
* the arithmetic of the decode loop (lines 98-137).

Machine integers are `Int`/`Nat` with explicit wrap-around where the source
narrows a value.
-/

namespace WhisperApi

/-! ## Bytes and machine integers -/

/-- One `unsigned char` of a `std::string`. -/
abbrev Byte := UInt8

/-- The bytes of an ASCII string literal of the source. -/
def ascii (s : String) : List Byte := s.toList.map (fun ch => UInt8.ofNat ch.toNat)

/-- Largest value of a C `int` (32 bits). -/
def INT_MAX : Int := 2147483647

/-- Smallest value of an `int64_t`. -/
def INT64_MIN : Int := -9223372036854775808

/-- Largest value of an `int64_t`. -/
def INT64_MAX : Int := 9223372036854775807

/-- Conversion of an integer value to a 32-bit `int` (two's complement wrap-around),
as performed by `(int)m->left` and by the initialisation of `const int out_needed`. -/
def toInt32 (x : Int) : Int := (x + 2147483648) % 4294967296 - 2147483648

/-- Conversion of an integer value to `int64_t` (two's complement wrap-around). -/
def toInt64 (x : Int) : Int := (x + 9223372036854775808) % 18446744073709551616 - 9223372036854775808

/-- Conversion of an integer value to `size_t` / `uint64_t` (reduction modulo 2^64). -/
def toUInt64 (x : Int) : Nat := (x % 18446744073709551616).toNat

/-! ## `json_escape` (server.cpp lines 29-42) -/

/-- The `switch (c)` of `json_escape`: the bytes appended to the output for one input byte.
`92` is the backslash, `34` the double quote, `10`, `13`, `9` are newline, carriage return
and tab; `110`, `114`, `116` are the letters n, r, t. -/
def escape_byte (c : Byte) : List Byte :=
  if c = 92 then [92, 92]
  else if c = 34 then [92, 34]
  else if c = 10 then [92, 110]
  else if c = 13 then [92, 114]
  else if c = 9 then [92, 116]
  else [c]

/-- The loop of `json_escape`: the output `o` starts empty and every byte of `s` appends its
escape to it. -/
def json_escape (s : List Byte) : List Byte :=
  s.foldl (fun o c => o ++ escape_byte c) []

/-- Reference JSON string decoder restricted to the escapes named by the round-trip property:
a backslash followed by a backslash, a double quote, or one of the letters n, r, t decodes to
the corresponding byte; every other byte is taken literally. The flag records that the
previous byte was a backslash that has not been consumed yet. This decoder is not part of
`server.cpp`; it is the decoder against which `json_escape` is compared. -/
def json_unescape_from : Bool → List Byte → List Byte
  | false, [] => []
  | true, [] => [92]
  | false, c :: rest =>
    if c = 92 then json_unescape_from true rest else c :: json_unescape_from false rest
  | true, c :: rest =>
    if c = 92 then 92 :: json_unescape_from false rest
    else if c = 34 then 34 :: json_unescape_from false rest
    else if c = 110 then 10 :: json_unescape_from false rest
    else if c = 114 then 13 :: json_unescape_from false rest
    else if c = 116 then 9 :: json_unescape_from false rest
    else 92 :: c :: json_unescape_from false rest

/-- Reference JSON string decoder (see `json_unescape_from`), started outside an escape. -/
def json_unescape (s : List Byte) : List Byte := json_unescape_from false s

/-- Scanner for the inside of a JSON string literal: `true` when the bytes contain no
unescaped double quote, every backslash starts one of the two-byte escapes
backslash-backslash, backslash-quote, backslash-n, backslash-r, backslash-t, and no byte
below `0x20` occurs. The flag records that the previous byte was a backslash opening an
escape. -/
def valid_json_chars_from : Bool → List Byte → Bool
  | false, [] => true
  | true, [] => false
  | false, c :: rest =>
    if c = 92 then valid_json_chars_from true rest
    else if c = 34 then false
    else if c.toNat < 32 then false
    else valid_json_chars_from false rest
  | true, c :: rest =>
    if c = 92 ∨ c = 34 ∨ c = 110 ∨ c = 114 ∨ c = 116 then valid_json_chars_from false rest
    else false

/-- Validity of the inside of a JSON string literal (see `valid_json_chars_from`). -/
def valid_json_chars (s : List Byte) : Bool := valid_json_chars_from false s

/-- Weaker scanner: as `valid_json_chars_from`, without the requirement on bytes below
`0x20`. -/
def quotes_and_escapes_ok_from : Bool → List Byte → Bool
  | false, [] => true
  | true, [] => false
  | false, c :: rest =>
    if c = 92 then quotes_and_escapes_ok_from true rest
    else if c = 34 then false
    else quotes_and_escapes_ok_from false rest
  | true, c :: rest =>
    if c = 92 ∨ c = 34 ∨ c = 110 ∨ c = 114 ∨ c = 116 then quotes_and_escapes_ok_from false rest
    else false

/-! ## The `POST /inference` handler (server.cpp lines 189-242) -/

/-- The part of `httplib::Response` the handler writes: `res.status` and the content. -/
structure Response where
  status : Int
  body : List Byte
deriving DecidableEq

/-- Calls the handler makes to its collaborators, in program order. `lock` and `unlock` are
the construction and destruction of a `std::lock_guard` on `g_mutex`. -/
inductive HandlerEvent where
  | decode
  | lock
  | unlock
  | whisper_full
  | whisper_full_n_segments
  | whisper_full_get_segment_text (i : Nat)
deriving DecidableEq

/-- Outcomes of the handler's collaborators for one request: whether
`decode_to_pcm16k_f32` returned `true`, the status `rc` of `whisper_full`, and the segment
texts the engine holds afterwards. -/
structure Collaborators where
  decode_ok : Bool
  rc : Int
  segments : List (List Byte)

/-- Body of the first error response, `R"({"error":"empty body"})"`. -/
def empty_body_json : List Byte := ascii "\x7b\"error\":\"empty body\"\x7d"

/-- Body of the second error response, `R"({"error":"decode failed"})"`. -/
def decode_failed_json : List Byte := ascii "\x7b\"error\":\"decode failed\"\x7d"

/-- Body of the third error response, `R"({"error":"whisper_full failed"})"`. -/
def whisper_failed_json : List Byte := ascii "\x7b\"error\":\"whisper_full failed\"\x7d"

/-- The success body `js << R"({"text":")" << json_escape(text) << R"("})"`. -/
def success_json (text : List Byte) : List Byte :=
  ascii "\x7b\"text\":\"" ++ json_escape text ++ ascii "\"\x7d"

/-- The result-extraction loop `for (int i = 0; i < n; ++i) oss << text(i)` with
`n = whisper_full_n_segments(g_ctx)`: the stream and the calls made so far are threaded
through the iterations. -/
def read_segments (segments : List (List Byte)) : List Byte × List HandlerEvent :=
  (List.range segments.length).foldl
    (fun acc i => (acc.1 ++ segments.getD i [],
                   acc.2 ++ [HandlerEvent.whisper_full_get_segment_text i]))
    ([], [])

/-- The `POST /inference` handler: the response it leaves in `res` and the calls it made. -/
def inference_handler (body : List Byte) (env : Collaborators) :
    Response × List HandlerEvent :=
  if body.isEmpty then
    (⟨400, empty_body_json⟩, [])
  else if !env.decode_ok then
    (⟨400, decode_failed_json⟩, [HandlerEvent.decode])
  else
    let first_scope :=
      [HandlerEvent.decode, HandlerEvent.lock, HandlerEvent.whisper_full, HandlerEvent.unlock]
    if env.rc ≠ 0 then
      (⟨500, whisper_failed_json⟩, first_scope)
    else
      let extracted := read_segments env.segments
      (⟨200, success_json extracted.1⟩,
       first_scope ++ [HandlerEvent.lock, HandlerEvent.whisper_full_n_segments]
         ++ extracted.2 ++ [HandlerEvent.unlock])

/-! ## `decode_to_pcm16k_f32`: native resources (server.cpp lines 45-164) -/

/-- The native objects `decode_to_pcm16k_f32` allocates: the container context `fmt`, the
cursor structure `mc`, the private byte-buffer duplicate `mc->base`, the transfer buffer
`iobuf`, the custom I/O context `avio`, the decoder context `codec`, the resampler state
`swr`, and the scratch objects `pkt` and `frm`. -/
inductive Resource where
  | fmt | mc | base | iobuf | avio | codec | swr | pkt | frm
deriving DecidableEq

/-- An acquisition of a native resource (an allocation that succeeded) or the release of
one (a call of its free routine on a valid handle). -/
inductive ResEvent where
  | acquire (r : Resource)
  | release (r : Resource)
deriving DecidableEq

/-- Outcomes of the native steps of one call, `true` for success: the allocations
`avformat_alloc_context`, `av_mallocz`, `av_malloc(size)`, `av_malloc(IO_BUF_SZ)`,
`avio_alloc_context`; `avformat_open_input`, `avformat_find_stream_info`,
`av_find_best_stream`, `avcodec_find_decoder`; `avcodec_alloc_context3`,
`avcodec_parameters_to_context`, `avcodec_open2`; `swr_alloc_set_opts`, `swr_init`;
`av_packet_alloc`, `av_frame_alloc`; and whether the accumulator is non-empty after the
read loop. -/
structure NativeOutcomes where
  fmt_alloc : Bool
  mc_alloc : Bool
  base_alloc : Bool
  iobuf_alloc : Bool
  avio_alloc : Bool
  open_input : Bool
  find_stream_info : Bool
  find_best_stream : Bool
  find_decoder : Bool
  codec_alloc : Bool
  parameters_to_context : Bool
  codec_open : Bool
  swr_alloc : Bool
  swr_init : Bool
  pkt_alloc : Bool
  frm_alloc : Bool
  pcm_nonempty : Bool
deriving DecidableEq

/-- Lines 110-146, the body of `if (swr && swr_init(swr) >= 0)`: both scratch objects are
requested, the read loop runs when both exist, then `if (pkt) av_packet_free`,
`if (frm) av_frame_free`, `swr_free`. Returns the value left in `ok` and the events. -/
def resample_block (o : NativeOutcomes) : Bool × List ResEvent :=
  let allocs :=
    (if o.pkt_alloc then [ResEvent.acquire Resource.pkt] else [])
      ++ (if o.frm_alloc then [ResEvent.acquire Resource.frm] else [])
  let ok := if o.pkt_alloc && o.frm_alloc then o.pcm_nonempty else false
  (ok,
   allocs
     ++ (if o.pkt_alloc then [ResEvent.release Resource.pkt] else [])
     ++ (if o.frm_alloc then [ResEvent.release Resource.frm] else [])
     ++ [ResEvent.release Resource.swr])

/-- Lines 94-152, the body of `if (dec)`: the decoder context is allocated; when it exists
and both `avcodec_parameters_to_context` and `avcodec_open2` succeed the resampler is
allocated, `resample_block` runs under `if (swr && swr_init(swr) >= 0)`, and the decoder is
freed at line 149; otherwise `else if (codec)` frees the decoder at line 151. -/
def codec_block (o : NativeOutcomes) : Bool × List ResEvent :=
  if o.codec_alloc then
    if o.parameters_to_context && o.codec_open then
      let swr_events := if o.swr_alloc then [ResEvent.acquire Resource.swr] else []
      let inner := if o.swr_alloc && o.swr_init then resample_block o else (false, [])
      (inner.1,
       [ResEvent.acquire Resource.codec] ++ swr_events ++ inner.2
         ++ [ResEvent.release Resource.codec])
    else
      (false, [ResEvent.acquire Resource.codec, ResEvent.release Resource.codec])
  else
    (false, [])

/-- Lines 86-155: `avformat_open_input`, `avformat_find_stream_info`, `av_find_best_stream`,
`avcodec_find_decoder`, then `codec_block`. A failed `avformat_open_input` frees the
user-supplied context and stores a null pointer in `fmt` (libavformat's documented
behaviour), which is the `release fmt` of the first branch. -/
def probe_block (o : NativeOutcomes) : Bool × List ResEvent :=
  if !o.open_input then (false, [ResEvent.release Resource.fmt])
  else if o.find_stream_info && o.find_best_stream && o.find_decoder then codec_block o
  else (false, [])

/-- Lines 157-161, the final teardown: `avformat_close_input(&fmt)` (a no-op on the null
pointer left by a failed `avformat_open_input`), `avio_context_free(&avio)`, which by the
source's comment on line 159 also frees `iobuf`, `av_free(mc->base)`, `av_free(mc)`. -/
def final_teardown (o : NativeOutcomes) : List ResEvent :=
  (if o.open_input then [ResEvent.release Resource.fmt] else [])
    ++ [ResEvent.release Resource.avio, ResEvent.release Resource.iobuf,
        ResEvent.release Resource.base, ResEvent.release Resource.mc]

/-- The function `decode_to_pcm16k_f32` as a function of the outcomes of its native steps:
its return value and the acquisitions and releases it performs, in program order. The
first five steps return early on failure (lines 47, 51, 54, 61, 74-80). -/
def decode_to_pcm16k_f32 (o : NativeOutcomes) : Bool × List ResEvent :=
  if !o.fmt_alloc then (false, [])
  else if !o.mc_alloc then
    (false, [ResEvent.acquire Resource.fmt, ResEvent.release Resource.fmt])
  else if !o.base_alloc then
    (false, [ResEvent.acquire Resource.fmt, ResEvent.acquire Resource.mc,
             ResEvent.release Resource.mc, ResEvent.release Resource.fmt])
  else if !o.iobuf_alloc then
    (false, [ResEvent.acquire Resource.fmt, ResEvent.acquire Resource.mc,
             ResEvent.acquire Resource.base,
             ResEvent.release Resource.base, ResEvent.release Resource.mc,
             ResEvent.release Resource.fmt])
  else if !o.avio_alloc then
    (false, [ResEvent.acquire Resource.fmt, ResEvent.acquire Resource.mc,
             ResEvent.acquire Resource.base, ResEvent.acquire Resource.iobuf,
             ResEvent.release Resource.iobuf, ResEvent.release Resource.base,
             ResEvent.release Resource.mc, ResEvent.release Resource.fmt])
  else
    let body := probe_block o
    (body.1,
     [ResEvent.acquire Resource.fmt, ResEvent.acquire Resource.mc,
      ResEvent.acquire Resource.base, ResEvent.acquire Resource.iobuf,
      ResEvent.acquire Resource.avio]
       ++ body.2 ++ final_teardown o)

/-- Replays a sequence of events on the set of live resources: an acquisition of a resource
that is already live, or a release of a resource that is not live (never acquired, or
already released), is an error (`none`); otherwise the resources still live at the end. -/
def live_after : List Resource → List ResEvent → Option (List Resource)
  | live, [] => some live
  | live, ResEvent.acquire r :: rest =>
    if r ∈ live then none else live_after (r :: live) rest
  | live, ResEvent.release r :: rest =>
    if r ∈ live then live_after (live.erase r) rest else none

/-- Every acquire has a matching later release, nothing is released twice, and nothing is
released that was not acquired. -/
def balanced (events : List ResEvent) : Bool := live_after [] events = some []

/-- The resources released by a sequence of events, in order. -/
def releases : List ResEvent → List Resource
  | [] => []
  | ResEvent.acquire _ :: rest => releases rest
  | ResEvent.release r :: rest => r :: releases rest

/-- The resources acquired by a sequence of events, in order. -/
def acquires : List ResEvent → List Resource
  | [] => []
  | ResEvent.acquire r :: rest => r :: acquires rest
  | ResEvent.release _ :: rest => acquires rest

/-- Position of a resource in the release order decoder context, resampler state,
packet/frame scratch objects, container context, custom I/O context (with its transfer
buffer), private byte-buffer duplicate, cursor structure. -/
def stated_rank : Resource → Nat
  | Resource.codec => 0
  | Resource.swr => 1
  | Resource.pkt => 2
  | Resource.frm => 2
  | Resource.fmt => 3
  | Resource.avio => 4
  | Resource.iobuf => 4
  | Resource.base => 5
  | Resource.mc => 6

/-- A release sequence follows the order of `stated_rank`: no resource later in that order
is released before one earlier in it. -/
def follows_stated_order (rs : List Resource) : Prop :=
  List.Pairwise (fun a b => stated_rank a ≤ stated_rank b) rs

/-- The release order of the teardown once the custom I/O context exists (lines 144-161). -/
def teardown_order : List Resource :=
  [Resource.pkt, Resource.frm, Resource.swr, Resource.codec, Resource.fmt, Resource.avio,
   Resource.iobuf, Resource.base, Resource.mc]

/-- The release order of the early returns (lines 51, 54, 61, 74-80). -/
def early_return_order : List Resource :=
  [Resource.iobuf, Resource.base, Resource.mc, Resource.fmt]

/-- The call got as far as a successful `avio_alloc_context`. -/
def io_context_allocated (o : NativeOutcomes) : Bool :=
  o.fmt_alloc && o.mc_alloc && o.base_alloc && o.iobuf_alloc && o.avio_alloc

/-- Outcomes in which every native step succeeds and the accumulator ends non-empty. -/
def all_succeed : NativeOutcomes :=
  { fmt_alloc := true, mc_alloc := true, base_alloc := true, iobuf_alloc := true,
    avio_alloc := true, open_input := true, find_stream_info := true,
    find_best_stream := true, find_decoder := true, codec_alloc := true,
    parameters_to_context := true, codec_open := true, swr_alloc := true, swr_init := true,
    pkt_alloc := true, frm_alloc := true, pcm_nonempty := true }

/-- The call reaches `swr_alloc_set_opts`, which succeeds, and `swr_init` then fails. -/
def swr_init_fails_after_alloc (o : NativeOutcomes) : Bool :=
  io_context_allocated o && o.open_input && o.find_stream_info && o.find_best_stream
    && o.find_decoder && o.codec_alloc && o.parameters_to_context && o.codec_open
    && o.swr_alloc && !o.swr_init

/-- Outcomes in which every native step up to and including `swr_alloc_set_opts` succeeds
and `swr_init` then fails. -/
def swr_init_failure : NativeOutcomes :=
  { fmt_alloc := true, mc_alloc := true, base_alloc := true, iobuf_alloc := true,
    avio_alloc := true, open_input := true, find_stream_info := true,
    find_best_stream := true, find_decoder := true, codec_alloc := true,
    parameters_to_context := true, codec_open := true, swr_alloc := true, swr_init := false,
    pkt_alloc := false, frm_alloc := false, pcm_nonempty := false }

/-- Outcomes in which the container context, the cursor and the byte-buffer duplicate are
allocated and the allocation of the transfer buffer fails (the early return of line 61). -/
def iobuf_alloc_failure : NativeOutcomes :=
  { fmt_alloc := true, mc_alloc := true, base_alloc := true, iobuf_alloc := false,
    avio_alloc := false, open_input := false, find_stream_info := false,
    find_best_stream := false, find_decoder := false, codec_alloc := false,
    parameters_to_context := false, codec_open := false, swr_alloc := false,
    swr_init := false, pkt_alloc := false, frm_alloc := false, pcm_nonempty := false }

instance : DecidablePred follows_stated_order := fun rs => by
  unfold follows_stated_order
  infer_instance

/-! ## The byte-source adapter (server.cpp lines 49-71) -/

/-- The value of libavutil's `AVERROR_EOF`, `-MKTAG('E','O','F',' ')`. -/
def AVERROR_EOF : Int := -541478725

/-- The cursor `struct MemCtx { base; p; left; }`: `base` is rendered as the contents of the
private duplicate it points to, `p` as the offset of the read pointer from `base`, and
`left` is the `size_t` count of remaining bytes (64 bits wide, as on the LP64 platforms the
server is built for). -/
structure MemCtx where
  base : List Byte
  p : Nat
  left : Nat
deriving DecidableEq

/-- Lines 53-57: the cursor initialised on a duplicate of the input blob,
`p = base`, `left = size`. -/
def fresh_cursor (data : List Byte) : MemCtx := { base := data, p := 0, left := data.length }

/-- The lambda `read_packet` (lines 63-71): the returned `int`, the cursor afterwards, and
the bytes written to `dst`. `n` is `std::min<int>(dst_size, (int)m->left)`; `m->left -= n`
is a `size_t` subtraction. -/
def read_packet (m : MemCtx) (dst_size : Int) : Int × MemCtx × List Byte :=
  let n : Int := min dst_size (toInt32 (m.left : Int))
  if n ≤ 0 then (AVERROR_EOF, m, [])
  else
    (n,
     { base := m.base, p := m.p + n.toNat, left := toUInt64 ((m.left : Int) - n) },
     (m.base.drop m.p).take n.toNat)

/-- A reader that calls `read_packet` with the requested lengths `ks`, one after the other,
and stops at the first end-of-stream: the chunks delivered so far, whether end-of-stream was
returned, and the cursor at the end. -/
def read_until_eof : List Int → MemCtx → List (List Byte) × Bool × MemCtx
  | [], m => ([], false, m)
  | k :: ks, m =>
    let r := read_packet m k
    if r.1 = AVERROR_EOF then ([], true, r.2.1)
    else
      let later := read_until_eof ks r.2.1
      (r.2.2 :: later.1, later.2.1, later.2.2)

/-! ## Arithmetic of the decode loop (server.cpp lines 98-137) -/

/-- Line 98: `codec->sample_rate > 0 ? codec->sample_rate : 48000`. -/
def in_rate (sample_rate : Int) : Int := if sample_rate > 0 then sample_rate else 48000

/-- Line 99: `codec->channels > 0 ? codec->channels : 2`. -/
def in_ch (channels : Int) : Int := if channels > 0 then channels else 2

/-- Lines 100-101: `codec->channel_layout ? codec->channel_layout :
av_get_default_channel_layout(in_ch)`, stored in an `int64_t`. The field is a `uint64_t`;
libavutil's `av_get_default_channel_layout` is the parameter `default_layout`. -/
def in_layout (default_layout : Int → Int) (channel_layout : Nat) (channels : Int) : Int :=
  toInt64 (if channel_layout ≠ 0 then (channel_layout : Int)
           else (toUInt64 (default_layout (in_ch channels)) : Int))

/-- The two rows of libavutil's default-layout table used as an instance of the parameter
of `in_layout`: one channel gives `AV_CH_LAYOUT_MONO` (`0x4`, front centre), two channels
give `AV_CH_LAYOUT_STEREO` (`0x3`, front left and front right). -/
def mono_stereo_layout (nb_channels : Int) : Int :=
  if nb_channels = 1 then 4 else if nb_channels = 2 then 3 else 0

/-- libavutil's `av_rescale_rnd(a, b, c, AV_ROUND_UP)` as documented: `a * b / c` rounded
toward plus infinity, computed without intermediate overflow; `INT64_MIN` when `c <= 0`,
`b < 0`, or the result is not representable in an `int64_t`. -/
def av_rescale_rnd_up (a b c : Int) : Int :=
  if c ≤ 0 ∨ b < 0 then INT64_MIN
  else
    let q := -((-(a * b)) / c)
    if INT64_MIN ≤ q ∧ q ≤ INT64_MAX then q else INT64_MIN

/-- Lines 125-127: `const int out_needed = av_rescale_rnd(swr_get_delay(swr, in_rate) +
frm->nb_samples, 16000, in_rate, AV_ROUND_UP)`. The sum is an `int64_t` sum and the result
is narrowed to `int`. -/
def out_needed (delay nb_samples rate : Int) : Int :=
  toInt32 (av_rescale_rnd_up (toInt64 (delay + nb_samples)) 16000 rate)

/-- The effect of `std::vector::resize(n)`: the first `n` elements, padded with
value-initialised elements when the vector was shorter. -/
def vector_resize {α : Type} (zero : α) (v : List α) (n : Nat) : List α :=
  v.take n ++ List.replicate (n - v.length) zero

/-- Lines 134-137: `if (got > 0) { out.resize((size_t)got); pcmf32.insert(pcmf32.end(),
out.begin(), out.end()); }`, where `out` is the buffer of capacity `out_needed` after
`swr_convert` returned `got`. -/
def append_converted {α : Type} (zero : α) (pcmf32 out : List α) (got : Int) : List α :=
  if got > 0 then pcmf32 ++ vector_resize zero out got.toNat else pcmf32

/-! ## Lemmas on `json_escape` -/

theorem foldl_escape_acc (s : List Byte) (acc : List Byte) :
    s.foldl (fun o c => o ++ escape_byte c) acc = acc ++ json_escape s := by
  induction s generalizing acc with
  | nil => simp [json_escape]
  | cons c t ih =>
    simp only [json_escape, List.foldl_cons, List.nil_append]
    rw [ih (acc ++ escape_byte c), ih (escape_byte c)]
    simp [json_escape]

theorem json_escape_cons (c : Byte) (t : List Byte) :
    json_escape (c :: t) = escape_byte c ++ json_escape t := by
  simp only [json_escape, List.foldl_cons, List.nil_append]
  rw [foldl_escape_acc]
  rfl

theorem unescape_escape_byte (c : Byte) (rest : List Byte) :
    json_unescape_from false (escape_byte c ++ rest) = c :: json_unescape_from false rest := by
  unfold escape_byte
  split_ifs with h1 h2 h3 h4 h5
  · subst h1; simp [json_unescape_from]
  · subst h2; simp [json_unescape_from]
  · subst h3; simp [json_unescape_from]
  · subst h4; simp [json_unescape_from]
  · subst h5; simp [json_unescape_from]
  · simp [json_unescape_from, h1]

theorem json_unescape_escape (t : List Byte) : json_unescape (json_escape t) = t := by
  induction t with
  | nil => rfl
  | cons c t ih =>
    rw [json_escape_cons]
    unfold json_unescape at *
    rw [unescape_escape_byte, ih]

theorem quotes_and_escapes_ok_escape_byte (c : Byte) (rest : List Byte) :
    quotes_and_escapes_ok_from false (escape_byte c ++ rest)
      = quotes_and_escapes_ok_from false rest := by
  unfold escape_byte
  split_ifs with h1 h2 h3 h4 h5
  · simp [quotes_and_escapes_ok_from]
  · simp [quotes_and_escapes_ok_from]
  · simp [quotes_and_escapes_ok_from]
  · simp [quotes_and_escapes_ok_from]
  · simp [quotes_and_escapes_ok_from]
  · simp [quotes_and_escapes_ok_from, h1, h2]

/-- Holds for every transcript: in `json_escape t` there is no unescaped double quote and
every backslash starts one of the five two-byte escapes. -/
theorem json_escape_quotes_and_escapes_ok (t : List Byte) :
    quotes_and_escapes_ok_from false (json_escape t) = true := by
  induction t with
  | nil => rfl
  | cons c t ih => rw [json_escape_cons, quotes_and_escapes_ok_escape_byte, ih]

/-! ## Lemmas on the handler -/

theorem read_segments_foldl (segs : List (List Byte)) (n : Nat) (hn : n ≤ segs.length) :
    (List.range n).foldl
        (fun (acc : List Byte × List HandlerEvent) i =>
          (acc.1 ++ segs.getD i [], acc.2 ++ [HandlerEvent.whisper_full_get_segment_text i]))
        ([], [])
      = ((segs.take n).flatten,
         (List.range n).map HandlerEvent.whisper_full_get_segment_text) := by
  induction n with
  | zero => simp
  | succ k ih =>
    have hk : k < segs.length := hn
    rw [List.range_succ, List.foldl_append, ih (Nat.le_of_lt hk)]
    simp only [List.foldl_cons, List.foldl_nil, List.map_append, List.map_cons, List.map_nil]
    have ht : List.take (k + 1) segs = List.take k segs ++ [segs[k]] := by
      rw [List.take_succ, List.getElem?_eq_getElem hk]; rfl
    simp only [List.getD_eq_getElem?_getD, List.getElem?_eq_getElem hk, Option.getD_some, ht,
      List.flatten_append, List.flatten_cons, List.flatten_nil, List.append_nil]

theorem read_segments_eq (segs : List (List Byte)) :
    read_segments segs
      = (segs.flatten, (List.range segs.length).map HandlerEvent.whisper_full_get_segment_text) := by
  unfold read_segments
  rw [read_segments_foldl segs segs.length (Nat.le_refl _), List.take_length]

/-! ## Claims on the handler and on `json_escape` -/

/-- C2: decoding `json_escape t` with the reference JSON string decoder returns exactly `t`,
for every byte string `t`; hence `json_escape` is injective. -/
theorem json_escape_round_trip :
    (∀ t : List Byte, json_unescape (json_escape t) = t)
    ∧ Function.Injective json_escape := by
  refine ⟨json_unescape_escape, ?_⟩
  intro a b hab
  have h := congrArg json_unescape hab
  rwa [json_unescape_escape, json_unescape_escape] at h

/-- C3, evaluated on the transcript made of the single form-feed byte `0x0C`: `json_escape`
returns it unchanged, so the string literal of the success body contains a raw control
character and fails the validity scan, although its quotes and backslashes are in order. -/
theorem json_escape_leaves_form_feed_raw :
    json_escape [12] = [12]
    ∧ success_json [12] = ascii "\x7b\"text\":\"" ++ [12] ++ ascii "\"\x7d"
    ∧ valid_json_chars (json_escape [12]) = false
    ∧ quotes_and_escapes_ok_from false (json_escape [12]) = true := by
  decide

/-- C4, evaluated on a request with a one-byte body that decodes, `rc = 0` and two
segments: the handler releases `g_mutex` after `whisper_full` and acquires it again before
`whisper_full_n_segments`, so the lock is not held from the inference call to the last
segment read. -/
theorem inference_handler_releases_lock_between :
    (inference_handler [82] ⟨true, 0, [[104, 105], [33]]⟩).2
      = [HandlerEvent.decode,
         HandlerEvent.lock, HandlerEvent.whisper_full, HandlerEvent.unlock,
         HandlerEvent.lock, HandlerEvent.whisper_full_n_segments,
         HandlerEvent.whisper_full_get_segment_text 0,
         HandlerEvent.whisper_full_get_segment_text 1,
         HandlerEvent.unlock] := by
  decide

/-! ## Claims on the resources of `decode_to_pcm16k_f32` -/

/-- The events of a call are balanced exactly when the call does not allocate the resampler
and then fail to initialise it. -/
theorem decode_balanced_iff (o : NativeOutcomes) :
    balanced (decode_to_pcm16k_f32 o).2 = !swr_init_fails_after_alloc o := by
  rcases o with ⟨a1, a2, a3, a4, a5, a6, a7, a8, a9, a10, a11, a12, a13, a14, a15, a16, a17⟩
  cases a1
  · rfl
  cases a2
  · rfl
  cases a3
  · rfl
  cases a4
  · rfl
  cases a5
  · rfl
  cases a6
  · rfl
  cases a7
  · rfl
  cases a8
  · rfl
  cases a9
  · rfl
  cases a10
  · rfl
  cases a11
  · rfl
  cases a12
  · rfl
  cases a13
  · rfl
  cases a14
  · rfl
  cases a15 <;> cases a16 <;> rfl

/-- On every path no release routine receives a resource that is not live, and the only
resource that can stay live at the return is the resampler state. -/
theorem decode_live_at_return (o : NativeOutcomes) :
    live_after [] (decode_to_pcm16k_f32 o).2
      = some (if swr_init_fails_after_alloc o then [Resource.swr] else []) := by
  rcases o with ⟨a1, a2, a3, a4, a5, a6, a7, a8, a9, a10, a11, a12, a13, a14, a15, a16, a17⟩
  cases a1
  · rfl
  cases a2
  · rfl
  cases a3
  · rfl
  cases a4
  · rfl
  cases a5
  · rfl
  cases a6
  · rfl
  cases a7
  · rfl
  cases a8
  · rfl
  cases a9
  · rfl
  cases a10
  · rfl
  cases a11
  · rfl
  cases a12
  · rfl
  cases a13
  · rfl
  cases a14
  · rfl
  cases a15 <;> cases a16 <;> rfl

/-- C5, evaluated on the outcomes in which `swr_alloc_set_opts` succeeds and `swr_init`
fails: the resampler state is acquired and no release of it follows, so the events of the
call are not balanced and the resampler state is still live at the return. -/
theorem decode_leaks_resampler_on_init_failure :
    decode_to_pcm16k_f32 swr_init_failure
      = (false,
         [ResEvent.acquire Resource.fmt, ResEvent.acquire Resource.mc,
          ResEvent.acquire Resource.base, ResEvent.acquire Resource.iobuf,
          ResEvent.acquire Resource.avio, ResEvent.acquire Resource.codec,
          ResEvent.acquire Resource.swr, ResEvent.release Resource.codec,
          ResEvent.release Resource.fmt, ResEvent.release Resource.avio,
          ResEvent.release Resource.iobuf, ResEvent.release Resource.base,
          ResEvent.release Resource.mc])
    ∧ Resource.swr ∈ acquires (decode_to_pcm16k_f32 swr_init_failure).2
    ∧ Resource.swr ∉ releases (decode_to_pcm16k_f32 swr_init_failure).2
    ∧ balanced (decode_to_pcm16k_f32 swr_init_failure).2 = false
    ∧ live_after [] (decode_to_pcm16k_f32 swr_init_failure).2 = some [Resource.swr] := by
  decide

/-- C6, refuted as stated: when every step succeeds the packet, the frame and the resampler
state are released before the decoder context, and on the early return of line 61 the
byte-buffer duplicate and the cursor are released before the container context. -/
theorem release_order_not_as_stated :
    releases (decode_to_pcm16k_f32 all_succeed).2
      = [Resource.pkt, Resource.frm, Resource.swr, Resource.codec, Resource.fmt,
         Resource.avio, Resource.iobuf, Resource.base, Resource.mc]
    ∧ ¬ follows_stated_order (releases (decode_to_pcm16k_f32 all_succeed).2)
    ∧ releases (decode_to_pcm16k_f32 iobuf_alloc_failure).2
      = [Resource.base, Resource.mc, Resource.fmt]
    ∧ ¬ follows_stated_order (releases (decode_to_pcm16k_f32 iobuf_alloc_failure).2) := by
  decide

/-- C6, amended: on every exit path the releases follow one fixed order, restricted to the
resources released on that path. Once the custom I/O context has been allocated the order
is packet, frame, resampler state, decoder context, container context, custom I/O context
with its transfer buffer, byte-buffer duplicate, cursor structure; on the early returns
before that it is transfer buffer, byte-buffer duplicate, cursor structure, container
context. -/
theorem release_order_fixed (o : NativeOutcomes) :
    List.Sublist (releases (decode_to_pcm16k_f32 o).2)
      (if io_context_allocated o then teardown_order else early_return_order) := by
  rw [← List.isSublist_iff_sublist]
  rcases o with ⟨a1, a2, a3, a4, a5, a6, a7, a8, a9, a10, a11, a12, a13, a14, a15, a16, a17⟩
  cases a1
  · rfl
  cases a2
  · rfl
  cases a3
  · rfl
  cases a4
  · rfl
  cases a5
  · rfl
  cases a6
  · rfl
  cases a7
  · rfl
  cases a8
  · rfl
  cases a9
  · rfl
  cases a10
  · rfl
  cases a11
  · rfl
  cases a12
  · rfl
  cases a13
  · rfl
  cases a14
  · rfl
  cases a15 <;> cases a16 <;> rfl

/-! ## Claims on the byte-source adapter -/

theorem toInt32_of_fits (x : Int) (h0 : 0 ≤ x) (h1 : x ≤ INT_MAX) : toInt32 x = x := by
  unfold toInt32
  unfold INT_MAX at h1
  omega

theorem read_packet_eof_of_empty (m : MemCtx) (k : Int) (h : m.left = 0) :
    read_packet m k = (AVERROR_EOF, m, []) := by
  have h32 : toInt32 (m.left : Int) = 0 := by rw [h]; rfl
  unfold read_packet
  simp only [h32]
  have : min k 0 ≤ 0 := min_le_right _ _
  simp [this]

theorem read_packet_some (m : MemCtx) (k : Int) (hk : 0 < k) (h0 : 0 < m.left)
    (h1 : (m.left : Int) ≤ INT_MAX) :
    read_packet m k
      = (min k (m.left : Int),
         { base := m.base, p := m.p + (min k (m.left : Int)).toNat,
           left := m.left - (min k (m.left : Int)).toNat },
         (m.base.drop m.p).take (min k (m.left : Int)).toNat) := by
  have h32 : toInt32 (m.left : Int) = m.left := toInt32_of_fits _ (by omega) h1
  unfold read_packet
  simp only [h32]
  have hpos : ¬ (min k (m.left : Int) ≤ 0) := by omega
  simp only [hpos, if_false]
  have : toUInt64 ((m.left : Int) - min k (m.left : Int))
      = m.left - (min k (m.left : Int)).toNat := by
    unfold toUInt64
    unfold INT_MAX at h1
    omega
  rw [this]

theorem take_drop_append_take_drop (l : List Byte) (p n j : Nat) :
    (l.drop p).take n ++ (l.drop (p + n)).take j = (l.drop p).take (n + j) := by
  rw [List.take_add, List.drop_drop]

theorem read_until_eof_invariant (ks : List Int) : ∀ (m : MemCtx),
    (m.left : Int) ≤ INT_MAX → m.p + m.left = m.base.length → (∀ k ∈ ks, 0 < k) →
    (read_until_eof ks m).2.2.base = m.base
    ∧ (read_until_eof ks m).2.2.p + (read_until_eof ks m).2.2.left = m.base.length
    ∧ m.p ≤ (read_until_eof ks m).2.2.p
    ∧ (read_until_eof ks m).1.flatten
        = (m.base.drop m.p).take ((read_until_eof ks m).2.2.p - m.p)
    ∧ (read_until_eof ks m).1.length ≤ (read_until_eof ks m).2.2.p - m.p
    ∧ ((read_until_eof ks m).2.1 = true → (read_until_eof ks m).2.2.left = 0)
    ∧ ((read_until_eof ks m).2.1 = false → (read_until_eof ks m).1.length = ks.length) := by
  induction ks with
  | nil =>
    intro m _ hwf _
    simp [read_until_eof, hwf]
  | cons k ks ih =>
    intro m hleft hwf hpos
    have hk : 0 < k := hpos k (List.mem_cons_self _ _)
    have hks : ∀ k' ∈ ks, 0 < k' := fun k' hk' => hpos k' (List.mem_cons_of_mem _ hk')
    by_cases h0 : m.left = 0
    · have e : read_until_eof (k :: ks) m = ([], true, m) := by
        simp [read_until_eof, read_packet_eof_of_empty m k h0]
      rw [e]
      exact ⟨rfl, hwf, Nat.le_refl _, by simp, by simp, fun _ => h0, by simp⟩
    · have hl : 0 < m.left := Nat.pos_of_ne_zero h0
      have hne : min k (m.left : Int) ≠ AVERROR_EOF := by
        unfold AVERROR_EOF
        omega
      have hn1 : 1 ≤ (min k (m.left : Int)).toNat := by omega
      have hn2 : (min k (m.left : Int)).toNat ≤ m.left := by omega
      have step := ih
        { base := m.base, p := m.p + (min k (m.left : Int)).toNat,
          left := m.left - (min k (m.left : Int)).toNat }
        (by simp only; unfold INT_MAX at *; omega)
        (by simp only; omega) hks
      simp only at step
      obtain ⟨s1, s2, s3, s4, s5, s6, s7⟩ := step
      simp only [read_until_eof, read_packet_some m k hk hl hleft, hne, if_false]
      refine ⟨s1, s2, by omega, ?_, ?_, s6, ?_⟩
      · rw [List.flatten_cons, s4, take_drop_append_take_drop]
        congr 1
        omega
      · simp only [List.length_cons]
        omega
      · intro hf
        simp only [List.length_cons, s7 hf]

/-- C10: for every input blob whose length fits in a signed 32-bit `int` and every sequence
of positive requested lengths, reading from a fresh cursor keeps
(bytes consumed) + (remaining count) = size after every call; and when the sequence is
longer than the blob, end-of-stream is reached after at most `size` successful calls and
the chunks returned before it concatenate to the blob exactly. -/
theorem read_until_eof_delivers_blob (data : List Byte) (ks : List Int)
    (hsize : (data.length : Int) ≤ INT_MAX) (hpos : ∀ k ∈ ks, 0 < k) :
    (∀ j : Nat,
        (read_until_eof (ks.take j) (fresh_cursor data)).2.2.p
          + (read_until_eof (ks.take j) (fresh_cursor data)).2.2.left = data.length
        ∧ (read_until_eof (ks.take j) (fresh_cursor data)).1.flatten
          = data.take (read_until_eof (ks.take j) (fresh_cursor data)).2.2.p)
    ∧ (data.length < ks.length →
        (read_until_eof ks (fresh_cursor data)).2.1 = true
        ∧ (read_until_eof ks (fresh_cursor data)).1.length ≤ data.length
        ∧ (read_until_eof ks (fresh_cursor data)).1.flatten = data
        ∧ (read_until_eof ks (fresh_cursor data)).2.2.left = 0) := by
  have inv : ∀ ks' : List Int, (∀ k ∈ ks', 0 < k) → _ :=
    fun ks' h => read_until_eof_invariant ks' (fresh_cursor data) hsize (by simp [fresh_cursor]) h
  constructor
  · intro j
    obtain ⟨_, s2, _, s4, _, _, _⟩ := inv (ks.take j) (fun k hk => hpos k (List.mem_of_mem_take hk))
    simp only [fresh_cursor, List.drop_zero, Nat.sub_zero] at s2 s4
    exact ⟨s2, s4⟩
  · intro hlen
    obtain ⟨_, s2, _, s4, s5, s6, s7⟩ := inv ks hpos
    simp only [fresh_cursor, List.drop_zero, Nat.sub_zero] at s2 s4 s5 s6 s7
    have heof : (read_until_eof ks (fresh_cursor data)).2.1 = true := by
      cases hb : (read_until_eof ks (fresh_cursor data)).2.1
      · have := s7 hb
        simp only [fresh_cursor] at hb this
        omega
      · rfl
    have hleft := s6 heof
    simp only [fresh_cursor] at heof ⊢
    refine ⟨heof, by omega, ?_, hleft⟩
    rw [s4]
    apply List.take_of_length_le
    omega

/-- C10, the witness of `read_until_eof_delivers_blob`: a three-byte blob read in requests
of two bytes. -/
theorem read_until_eof_delivers_blob_witness :
    read_until_eof [2, 2, 2, 2] (fresh_cursor [7, 8, 9]) = ([[7, 8], [9]], true, ⟨[7, 8, 9], 3, 0⟩)
    ∧ (read_until_eof [2, 2, 2, 2] (fresh_cursor [7, 8, 9])).1.flatten = [7, 8, 9] :=
  ⟨by decide,
   ((read_until_eof_delivers_blob [7, 8, 9] [2, 2, 2, 2] (by decide) (by decide)).2
      (by decide)).2.2.1⟩

/-! ## Claims on the arithmetic of the decode loop -/

theorem toInt64_of_fits (x : Int) (h0 : INT64_MIN ≤ x) (h1 : x ≤ INT64_MAX) :
    toInt64 x = x := by
  unfold toInt64
  unfold INT64_MIN at h0
  unfold INT64_MAX at h1
  omega

theorem toInt64_toUInt64 (x : Int) : toInt64 ((toUInt64 x : Nat) : Int) = toInt64 x := by
  unfold toInt64 toUInt64
  omega

theorem toUInt64_toInt64_of_lt (n : Nat) (h : n < 18446744073709551616) :
    toUInt64 (toInt64 (n : Int)) = n := by
  unfold toInt64 toUInt64
  omega

theorem ceil_div_spec (x r : Int) (hr : 0 < r) :
    x ≤ -((-x) / r) * r ∧ (∀ n : Int, x ≤ n * r → -((-x) / r) ≤ n)
    ∧ x / r ≤ -((-x) / r) := by
  have h1 : (-x) / r * r ≤ -x := Int.ediv_mul_le (-x) (ne_of_gt hr)
  have hA : x ≤ -((-x) / r) * r := by
    rw [neg_mul]
    omega
  have hB : ∀ n : Int, x ≤ n * r → -((-x) / r) ≤ n := by
    intro n hn
    have h2 : (-n) * r ≤ -x := by
      rw [neg_mul]
      omega
    have h3 : -n ≤ (-x) / r := (Int.le_ediv_iff_mul_le hr).mpr h2
    omega
  refine ⟨hA, hB, ?_⟩
  have h4 : x / r * r ≤ x := Int.ediv_mul_le x (ne_of_gt hr)
  have h5 : x / r * r ≤ -((-x) / r) * r := le_trans h4 hA
  exact le_of_mul_le_mul_right h5 hr

theorem out_needed_eq_ceil (d nb r : Int) (hd : 0 ≤ d) (hnb : 0 ≤ nb) (hr : 0 < r)
    (hrate : r ≤ INT_MAX) (hfit : (d + nb) * 16000 ≤ INT_MAX * r) :
    out_needed d nb r = -((-((d + nb) * 16000)) / r) := by
  have hsum0 : 0 ≤ d + nb := by omega
  have hbig : INT_MAX * r ≤ INT_MAX * INT_MAX :=
    mul_le_mul_of_nonneg_left hrate (by decide)
  have hsum1 : d + nb ≤ INT64_MAX := by
    unfold INT_MAX at hfit hbig
    unfold INT64_MAX
    omega
  have h64 : toInt64 (d + nb) = d + nb :=
    toInt64_of_fits _ (by unfold INT64_MIN; omega) hsum1
  obtain ⟨hA, hB, _⟩ := ceil_div_spec ((d + nb) * 16000) r hr
  have hq1 : -((-((d + nb) * 16000)) / r) ≤ INT_MAX := hB INT_MAX hfit
  have hq0 : 0 ≤ -((-((d + nb) * 16000)) / r) := by
    by_contra hneg
    have hlt : -((-((d + nb) * 16000)) / r) ≤ -1 := by omega
    have : -((-((d + nb) * 16000)) / r) * r ≤ (-1) * r :=
      mul_le_mul_of_nonneg_right hlt (le_of_lt hr)
    omega
  unfold out_needed av_rescale_rnd_up
  rw [h64]
  have hc : ¬ (r ≤ 0 ∨ (16000 : Int) < 0) := by omega
  simp only [hc, if_false]
  have hrange : INT64_MIN ≤ -((-((d + nb) * 16000)) / r)
      ∧ -((-((d + nb) * 16000)) / r) ≤ INT64_MAX := by
    unfold INT64_MIN INT64_MAX
    unfold INT_MAX at hq1
    omega
  simp only [hrange, and_self, if_true]
  exact toInt32_of_fits _ hq0 hq1

/-- C8, amended: for every decoded frame with sample count `nb >= 0`, resampler delay
`d >= 0` and input rate `0 < r <= INT_MAX` whose rounded-up conversion fits in a signed
32-bit `int`, `out_needed` is the rate conversion of `d + nb` from `r` to 16000 Hz rounded
up: the least integer `n` with `n * r >= (d + nb) * 16000`, never smaller than the exact
quotient. For every frame the number of samples appended to the accumulator is the
produced count `got` when `got > 0`, whatever the capacity, and nothing otherwise. -/
theorem out_needed_rounds_up (d nb r : Int) (hd : 0 ≤ d) (hnb : 0 ≤ nb) (hr : 0 < r)
    (hrate : r ≤ INT_MAX) (hfit : (d + nb) * 16000 ≤ INT_MAX * r) :
    (d + nb) * 16000 ≤ out_needed d nb r * r
    ∧ (∀ n : Int, (d + nb) * 16000 ≤ n * r → out_needed d nb r ≤ n)
    ∧ (d + nb) * 16000 / r ≤ out_needed d nb r
    ∧ (∀ (α : Type) (zero : α) (pcmf32 out : List α) (got : Int),
        (0 < got →
          ((append_converted zero pcmf32 out got).length : Int) = pcmf32.length + got)
        ∧ (got ≤ 0 → append_converted zero pcmf32 out got = pcmf32)) := by
  rw [out_needed_eq_ceil d nb r hd hnb hr hrate hfit]
  obtain ⟨hA, hB, hC⟩ := ceil_div_spec ((d + nb) * 16000) r hr
  refine ⟨hA, hB, hC, ?_⟩
  intro α zero pcmf32 out got
  constructor
  · intro hgot
    unfold append_converted vector_resize
    simp only [hgot, if_true, List.length_append, List.length_take, List.length_replicate]
    omega
  · intro hgot
    unfold append_converted
    have : ¬ (got > 0) := by omega
    simp only [this, if_false]

/-- C8, the witness of `out_needed_rounds_up`: a frame of 1024 samples at 44100 Hz with a
resampler delay of 16 samples needs 378 output samples. -/
theorem out_needed_rounds_up_witness :
    out_needed 16 1024 44100 = 378
    ∧ (16 + 1024) * 16000 ≤ out_needed 16 1024 44100 * 44100 :=
  ⟨by decide,
   (out_needed_rounds_up 16 1024 44100 (by decide) (by decide) (by decide) (by decide)
      (by decide)).1⟩

/-- C8, refuted as stated: a frame of `2^30` samples at an input rate of 8000 Hz with no
delay converts to `2^31` output samples, which the `int` `out_needed` cannot hold; the
stored value is negative and smaller than the exact quotient. -/
theorem out_needed_wraps :
    out_needed 0 1073741824 8000 = -2147483648
    ∧ ¬ ((0 + 1073741824) * 16000 ≤ out_needed 0 1073741824 8000 * 8000)
    ∧ ¬ ((0 + 1073741824) * 16000 / 8000 ≤ out_needed 0 1073741824 8000) := by
  decide

/-- C9, amended: a reported sample rate `<= 0` makes the input rate 48000 Hz and a positive
one is passed through, so the input rate is always strictly positive. A reported channel
layout other than 0 is passed through with its 64 bits unchanged. With channel layout 0
the input layout is the default layout of the reported channel count when that count is
positive, and the default layout of two channels (stereo) when the count is `<= 0`. -/
theorem resampler_input_defaults (default_layout : Int → Int) (sample_rate channels : Int)
    (channel_layout : Nat) :
    (sample_rate ≤ 0 → in_rate sample_rate = 48000)
    ∧ (0 < sample_rate → in_rate sample_rate = sample_rate)
    ∧ 0 < in_rate sample_rate
    ∧ (channel_layout ≠ 0 → channel_layout < 18446744073709551616 →
        toUInt64 (in_layout default_layout channel_layout channels) = channel_layout)
    ∧ (channel_layout = 0 → 0 < channels →
        in_layout default_layout channel_layout channels = toInt64 (default_layout channels))
    ∧ (channel_layout = 0 → channels ≤ 0 →
        in_layout default_layout channel_layout channels = toInt64 (default_layout 2)) := by
  refine ⟨?_, ?_, ?_, ?_, ?_, ?_⟩
  · intro h
    unfold in_rate
    have : ¬ (sample_rate > 0) := by omega
    simp only [this, if_false]
  · intro h
    unfold in_rate
    simp only [gt_iff_lt, h, if_true]
  · unfold in_rate
    split_ifs with h
    · exact h
    · decide
  · intro h hlt
    unfold in_layout
    simp only [ne_eq, h, not_false_eq_true, if_true]
    exact toUInt64_toInt64_of_lt _ hlt
  · intro h hc
    unfold in_layout in_ch
    simp only [h, ne_eq, not_true_eq_false, if_false, gt_iff_lt, hc, if_true]
    exact toInt64_toUInt64 _
  · intro h hc
    unfold in_layout in_ch
    have : ¬ (channels > 0) := by omega
    simp only [h, ne_eq, not_true_eq_false, if_false, this]
    exact toInt64_toUInt64 _

/-- C9, refuted as stated: a decoder that reports channel layout 0 and one channel gives the
resampler the default mono layout (`0x4`), not the default stereo layout (`0x3`). -/
theorem unset_layout_with_one_channel_is_mono :
    in_layout mono_stereo_layout 0 1 = 4
    ∧ mono_stereo_layout 2 = 3
    ∧ in_layout mono_stereo_layout 0 1 ≠ mono_stereo_layout 2 := by
  decide

/-! ## Further facts on the success body and on the calls of the handler -/

theorem valid_json_chars_escape_byte (c : Byte) (rest : List Byte) :
    valid_json_chars_from false (escape_byte c ++ rest)
      = (decide (32 ≤ c.toNat ∨ c = 10 ∨ c = 13 ∨ c = 9)
          && valid_json_chars_from false rest) := by
  unfold escape_byte
  split_ifs with h1 h2 h3 h4 h5
  · subst h1
    simp [valid_json_chars_from]
    intro _
    decide
  · subst h2
    simp [valid_json_chars_from]
    intro _
    decide
  · subst h3; simp [valid_json_chars_from]
  · subst h4; simp [valid_json_chars_from]
  · subst h5; simp [valid_json_chars_from]
  · simp only [List.singleton_append, valid_json_chars_from, h1, h2, if_false, h3, h4, h5,
      or_false]
    by_cases h : c.toNat < 32
    · have : ¬ (32 ≤ c.toNat) := by omega
      simp [h, this]
    · have : 32 ≤ c.toNat := by omega
      simp [h, this]

/-- The string literal of the success body passes the validity scan exactly when the
transcript has no byte below `0x20` other than newline, carriage return and tab. -/
theorem valid_json_chars_escape_iff (t : List Byte) :
    valid_json_chars (json_escape t)
      = t.all (fun c => decide (32 ≤ c.toNat ∨ c = 10 ∨ c = 13 ∨ c = 9)) := by
  unfold valid_json_chars
  induction t with
  | nil => rfl
  | cons c t ih => rw [json_escape_cons, valid_json_chars_escape_byte, ih, List.all_cons]

/-- The calls of a request that reaches the result-extraction loop, for every such
request. -/
theorem inference_handler_calls_on_success (body : List Byte) (env : Collaborators)
    (hb : body ≠ []) (hd : env.decode_ok = true) (hrc : env.rc = 0) :
    (inference_handler body env).2
      = [HandlerEvent.decode, HandlerEvent.lock, HandlerEvent.whisper_full,
         HandlerEvent.unlock, HandlerEvent.lock, HandlerEvent.whisper_full_n_segments]
        ++ (List.range env.segments.length).map HandlerEvent.whisper_full_get_segment_text
        ++ [HandlerEvent.unlock] := by
  simp [inference_handler, hb, hd, hrc, read_segments_eq]
end WhisperApi
